import Mathlib

/-!
Verification of the NFP resource directory and advisory lock manager
(src/nfpcore/nfp_resource.c) and the UAL port-identifier setter
(src/mbl/nfp_ual.c), as a shallow embedding in Lean.

Bytes and machine words are modelled as `Nat` holding the value of the
corresponding C field (u8 values are below 2^8, u32 values below 2^32 as
guaranteed by the fixed-width on-wire fields); names and buffers are lists
of byte values.  The bus read of one directory entry either yields the
entry (full read) or fails short; hardware mutex calls are modelled by an
environment record giving each primitive's outcome, and the cleanup
behaviour of the C code is recorded as an explicit event trace.
-/

/-- Size of the name field of a directory entry (NFP_RESOURCE_ENTRY_NAME_SZ). -/
def NFP_RESOURCE_ENTRY_NAME_SZ : Nat := 8

/-- Total size in bytes of the on-device directory table (NFP_RESOURCE_TBL_SIZE). -/
def NFP_RESOURCE_TBL_SIZE : Nat := 4096

/-- C sizeof of struct nfp_resource_entry: the mutex word (owner u32 + key u32)
followed by the region descriptor (name[8], reserved[5], cpp_action u8,
cpp_token u8, cpp_target u8, page_offset u32, page_size u32).  The first five
region fields occupy 16 bytes, so the two u32 fields are 4-byte aligned and the
struct has no padding: sizeof = 8 + 24 = 32. -/
def sizeof_nfp_resource_entry : Nat := (4 + 4) + (8 + 5 + 1 + 1 + 1 + 4 + 4)

/-- Number of entries in the table (NFP_RESOURCE_TBL_ENTRIES =
NFP_RESOURCE_TBL_SIZE / sizeof(struct nfp_resource_entry)). -/
def NFP_RESOURCE_TBL_ENTRIES : Nat := NFP_RESOURCE_TBL_SIZE / sizeof_nfp_resource_entry

/-- Modelled from the spec: the CPP target ID of the resource table
(NFP_RESOURCE_TBL_TARGET, declared in nfp6000/nfp6000.h which is not under
src/); a well-known constant of the bus contract. -/
def NFP_RESOURCE_TBL_TARGET : Nat := 7

/-- Modelled from the spec: base address of the resource table
(NFP_RESOURCE_TBL_BASE, declared in nfp6000/nfp6000.h which is not under
src/); a well-known constant of the bus contract. -/
def NFP_RESOURCE_TBL_BASE : Nat := 0x8100000000

/-- Modelled from the spec: the reserved self-descriptor name of the table
(NFP_RESOURCE_TBL_NAME, declared in nfp6000/nfp6000.h which is not under
src/), as its ASCII byte values. -/
def NFP_RESOURCE_TBL_NAME : List Nat := [0x6e, 0x66, 0x70, 0x2e, 0x72, 0x65, 0x73]

/-- Modelled from the spec: the fixed sentinel key of the self-descriptor
entry (NFP_RESOURCE_TBL_KEY, declared in nfp6000/nfp6000.h which is not
under src/). -/
def NFP_RESOURCE_TBL_KEY : Nat := 0

/-- Modelled from the spec: packing of a {target, action, token} triple into
a 32-bit CPP ID (the NFP_CPP_ID macro of nfp_cpp.h, which is not under
src/): target in bits 24..30, token in bits 16..23, action in bits 8..15. -/
def NFP_CPP_ID (target action token : Nat) : Nat :=
  ((target &&& 0x7f) <<< 24) ||| ((token &&& 0xff) <<< 16) ||| ((action &&& 0xff) <<< 8)

/-- Mutex word of a directory entry: owner and lookup key (both u32). -/
structure nfp_resource_entry_mutex where
  owner : Nat
  key : Nat
deriving DecidableEq

/-- Region descriptor of a directory entry. -/
structure nfp_resource_entry_region where
  name : List Nat
  reserved : List Nat
  cpp_action : Nat
  cpp_token : Nat
  cpp_target : Nat
  page_offset : Nat
  page_size : Nat
deriving DecidableEq

/-- One 32-byte directory table entry. -/
structure nfp_resource_entry where
  mutex : nfp_resource_entry_mutex
  region : nfp_resource_entry_region
deriving DecidableEq

/-- A hardware mutex handle as allocated by nfp_cpp_mutex_alloc: it is keyed
by the {target, address, key} triple passed at allocation. -/
structure nfp_cpp_mutex where
  target : Nat
  address : Nat
  key : Nat
deriving DecidableEq

/-- The in-memory resource record (struct nfp_resource).  `name` is the
9-byte buffer char name[NFP_RESOURCE_ENTRY_NAME_SZ + 1]; `mutex` is NULL
(`none`) until nfp_cpp_resource_find stores the allocation result. -/
structure nfp_resource where
  name : List Nat
  cpp_id : Nat
  addr : Nat
  size : Nat
  mutex : Option nfp_cpp_mutex
deriving DecidableEq

/-- CRC-32 big-endian single-bit step with the standard polynomial, on u32. -/
def crc32_be_shift (crc : Nat) : Nat :=
  if Nat.testBit crc 31 then ((crc <<< 1) ^^^ 0x04c11db7) % 2 ^ 32
  else (crc <<< 1) % 2 ^ 32

/-- CRC-32 big-endian absorption of one byte. -/
def crc32_be_byte (crc b : Nat) : Nat :=
  Nat.repeat crc32_be_shift 8 ((crc ^^^ ((b &&& 0xff) <<< 24)) % 2 ^ 32)

/-- CRC-32 big-endian over a byte list. -/
def crc32_be (crc : Nat) (bs : List Nat) : Nat :=
  bs.foldl crc32_be_byte crc

/-- Fuel-driven helper for `lenBytes`; the fuel only bounds the iteration
count (each step divides by 256, so `n` itself is always enough fuel) and
keeps the recursion structural. -/
def lenBytesFuel : Nat → Nat → List Nat
  | 0, _ => []
  | _ + 1, 0 => []
  | fuel + 1, n + 1 => ((n + 1) % 256) :: lenBytesFuel fuel ((n + 1) / 256)

/-- Little-endian byte decomposition of a length, as consumed by the POSIX
cksum length-extension loop (one byte per iteration while nonzero). -/
def lenBytes (n : Nat) : List Nat := lenBytesFuel n n

/-- Modelled from the spec: crc32_posix of crc32.h (not under src/), the
CRC-32 POSIX cksum variant: big-endian CRC over the buffer, extended with
the length bytes, finally complemented. -/
def crc32_posix (bs : List Nat) : Nat :=
  0xffffffff ^^^ crc32_be (crc32_be 0 bs) (lenBytes bs.length)

/-- Bytes of a C string up to (not including) its first NUL. -/
def cstrBytes (s : List Nat) : List Nat :=
  s.takeWhile (fun b => b ≠ 0)

/-- Result of C strncpy(dst, src, n) into an n-byte buffer, viewed as the
full n bytes of dst: at most n bytes of src up to its terminator, padded
with zero bytes to exactly n. -/
def strncpyPad (src : List Nat) (n : Nat) : List Nat :=
  ((cstrBytes src).take n) ++ List.replicate (n - ((cstrBytes src).take n).length) 0

/-- The 8-byte comparand NFP_RESOURCE_TBL_NAME "\0\0\0\0\0\0\0\0" used by
the memcmp in nfp_cpp_resource_find (first 8 bytes of the padded literal). -/
def resource_table_name_pad : List Nat :=
  NFP_RESOURCE_TBL_NAME ++ List.replicate (8 - NFP_RESOURCE_TBL_NAME.length) 0

/-- Key derivation of nfp_cpp_resource_find (nfp_resource.c lines 129-141):
zero-pad the name to 8 bytes with strncpy; the table self-descriptor name
gets the sentinel key, every other name gets crc32_posix of the padded
buffer. -/
def nfp_resource_key (name : List Nat) : Nat :=
  let name_pad := strncpyPad name NFP_RESOURCE_ENTRY_NAME_SZ
  if name_pad = resource_table_name_pad then NFP_RESOURCE_TBL_KEY
  else crc32_posix name_pad

/-- Observable events of one acquire/release run: bus reads of directory
slots, hardware mutex operations with their outcome, frees, and the error
log line of nfp_device_unlock. -/
inductive Ev where
  | allocDevMutex (ok : Bool)
  | lockDev (r : Int)
  | unlockDev (r : Int)
  | freeDevMutex
  | readSlot (slot : Nat) (ok : Bool)
  | allocEntryMutex (ok : Bool)
  | lockEntry (r : Int)
  | unlockEntry (r : Int)
  | freeEntryMutex
  | freeRes
  | logUnlockFailed
deriving DecidableEq

/-- Outcome of the linear directory scan loop. -/
inductive ScanResult where
  | found (slot : Nat) (entry : nfp_resource_entry)
  | shortRead (slot : Nat)
  | notFound
deriving DecidableEq

/-- The scan loop of nfp_cpp_resource_find over the given slot indices:
read each entry in order; a short read aborts with -EIO, a key match stops
the scan, exhaustion reports not-found.  The event list records every
entry read issued, in order. -/
def scanSlots (table : Nat → Option nfp_resource_entry) (key : Nat) :
    List Nat → ScanResult × List Ev
  | [] => (.notFound, [])
  | i :: rest =>
    match table i with
    | none => (.shortRead i, [.readSlot i false])
    | some e =>
      if e.mutex.key = key then (.found i e, [.readSlot i true])
      else
        let r := scanSlots table key rest
        (r.1, .readSlot i true :: r.2)

/-- Environment of nfp_cpp_resource_find: the table as seen through the bus
(`none` at a slot means the read of that slot returns fewer bytes than the
entry size), and whether nfp_cpp_mutex_alloc for the matched entry
succeeds. -/
structure FindEnv where
  table : Nat → Option nfp_resource_entry
  entryMutexAllocOk : Bool

/-- nfp_cpp_resource_find (nfp_resource.c lines 126-168): derive the key,
scan all NFP_RESOURCE_TBL_ENTRIES slots; on a match fill the resource
record from the entry (cpp_id from the region triple, addr and size from
the page fields shifted left by 8) and store the per-entry mutex
allocation result WITHOUT checking it for NULL, returning 0; short read
returns -EIO (-5); exhaustion returns -ENOENT (-2). -/
def nfp_cpp_resource_find (env : FindEnv) (name : List Nat) (res : nfp_resource) :
    Int × nfp_resource × List Ev :=
  let key := nfp_resource_key name
  match scanSlots env.table key (List.range NFP_RESOURCE_TBL_ENTRIES) with
  | (.shortRead _, evs) => (-5, res, evs)
  | (.notFound, evs) => (-2, res, evs)
  | (.found i e, evs) =>
    let addr := NFP_RESOURCE_TBL_BASE + sizeof_nfp_resource_entry * i
    (0,
     { res with
       mutex := if env.entryMutexAllocOk then
           some ⟨NFP_RESOURCE_TBL_TARGET, addr, key⟩
         else none
       cpp_id := NFP_CPP_ID e.region.cpp_target e.region.cpp_action e.region.cpp_token
       addr := e.region.page_offset <<< 8
       size := e.region.page_size <<< 8 },
     evs ++ [.allocEntryMutex env.entryMutexAllocOk])

/-- Environment of one nfp_resource_acquire run: outcomes of the host
allocation and of each hardware mutex primitive invocation, plus the bus
view of the table. -/
structure AcquireEnv where
  resAllocOk : Bool
  devMutexAllocOk : Bool
  devLockResult : Int
  devUnlockResult : Int
  table : Nat → Option nfp_resource_entry
  entryMutexAllocOk : Bool
  entryLockResult : Int

/-- nfp_device_lock (nfp_resource.c lines 96-112): allocate the device
mutex keyed at the table base with the sentinel key and lock it; on lock
failure free the mutex and report failure. -/
def nfp_device_lock (env : AcquireEnv) : Option nfp_cpp_mutex × List Ev :=
  if env.devMutexAllocOk = false then (none, [.allocDevMutex false])
  else if env.devLockResult ≠ 0 then
    (none, [.allocDevMutex true, .lockDev env.devLockResult, .freeDevMutex])
  else
    (some ⟨NFP_RESOURCE_TBL_TARGET, NFP_RESOURCE_TBL_BASE, NFP_RESOURCE_TBL_KEY⟩,
     [.allocDevMutex true, .lockDev 0])

/-- nfp_device_unlock (nfp_resource.c lines 119-124): unlock the device
mutex, log an error line if the unlock reports failure, and free the mutex
regardless. -/
def nfp_device_unlock (env : AcquireEnv) : List Ev :=
  if env.devUnlockResult ≠ 0 then
    [.unlockDev env.devUnlockResult, .logUnlockFailed, .freeDevMutex]
  else [.unlockDev 0, .freeDevMutex]

/-- Result of nfp_resource_acquire: a populated handle, an ERR_PTR errno,
or the undefined behaviour of calling nfp_cpp_mutex_lock on the NULL
mutex pointer that nfp_cpp_resource_find stored when the per-entry
allocation failed (the code has no NULL check on that path). -/
inductive AcquireResult where
  | ok (res : nfp_resource)
  | err (e : Int)
  | nullDeref
deriving DecidableEq

/-- The freshly kzalloc-ed (zero-filled) resource record after
strncpy(res->name, name, NFP_RESOURCE_ENTRY_NAME_SZ): the first 8 bytes of
the 9-byte name buffer hold the truncated zero-padded caller name and the
ninth byte keeps its kzalloc zero. -/
def initRes (name : List Nat) : nfp_resource :=
  { name := strncpyPad name NFP_RESOURCE_ENTRY_NAME_SZ ++ [0]
    cpp_id := 0
    addr := 0
    size := 0
    mutex := none }

/-- nfp_resource_acquire (nfp_resource.c lines 179-217): kzalloc the record
(-ENOMEM on failure), strncpy the name into its zeroed 9-byte buffer, take
the device lock (-ENOMEM on failure), run the directory scan, lock the
per-entry mutex, and unwind through the goto chain on every failure:
err_res_mutex_free frees the entry mutex, err_unlock_dev releases the
device lock, err_free_res frees the record. -/
def nfp_resource_acquire (env : AcquireEnv) (name : List Nat) :
    AcquireResult × List Ev :=
  if env.resAllocOk = false then (.err (-12), [])
  else
    let res0 : nfp_resource := initRes name
    match nfp_device_lock env with
    | (none, evs) => (.err (-12), evs ++ [.freeRes])
    | (some _, evs) =>
      let f := nfp_cpp_resource_find ⟨env.table, env.entryMutexAllocOk⟩ name res0
      if f.1 ≠ 0 then
        (.err f.1, evs ++ f.2.2 ++ nfp_device_unlock env ++ [.freeRes])
      else
        match f.2.1.mutex with
        | none => (.nullDeref, evs ++ f.2.2)
        | some _ =>
          if env.entryLockResult ≠ 0 then
            (.err env.entryLockResult,
             evs ++ f.2.2 ++ [.lockEntry env.entryLockResult, .freeEntryMutex]
               ++ nfp_device_unlock env ++ [.freeRes])
          else
            (.ok f.2.1, evs ++ f.2.2 ++ [.lockEntry 0] ++ nfp_device_unlock env)

/-- Environment of nfp_resource_release: the outcome the hardware reports
for the per-entry unlock. -/
structure ReleaseEnv where
  entryUnlockResult : Int

/-- nfp_resource_release (nfp_resource.c lines 225-230): unlock the
per-entry mutex with the return value ignored, free the mutex allocation,
free the record.  The function returns void: it cannot fail to its
caller, and it emits no log line. -/
def nfp_resource_release (env : ReleaseEnv) : List Ev :=
  [.unlockEntry env.entryUnlockResult, .freeEntryMutex, .freeRes]

/-- Accessor nfp_resource_cpp_id. -/
def nfp_resource_cpp_id (res : nfp_resource) : Nat := res.cpp_id

/-- Accessor nfp_resource_name: returns the handle's name buffer (read by
callers as a C string). -/
def nfp_resource_name (res : nfp_resource) : List Nat := res.name

/-- Accessor nfp_resource_address. -/
def nfp_resource_address (res : nfp_resource) : Nat := res.addr

/-- Accessor nfp_resource_size. -/
def nfp_resource_size (res : nfp_resource) : Nat := res.size

/-- nfp_ual_set_port_id (nfp_ual.c lines 133-151), parametrized by the two
mask constants NFP_MBL_PORTID_MBL_MASK and NFP_MBL_PORTID_UAL_MASK (declared
in mbl headers not under src/): reject with -EINVAL (-22), leaving the
interface's port ID unchanged, any caller value intersecting the MBL mask;
otherwise install the caller bits masked to the UAL range merged with the
old ID's MBL bits and return 0.  The second component is the interface's
port ID after the call. -/
def nfp_ual_set_port_id (mblMask ualMask oldPortId portId : Nat) : Int × Nat :=
  if portId &&& mblMask ≠ 0 then (-22, oldPortId)
  else (0, (portId &&& ualMask) ||| (oldPortId &&& mblMask))

/-- Modelled from the spec: the hardware mutex primitive of the bus layer
(nfp_cppcore.c, not under src/) is an atomic advisory lock cell: a lock
attempt succeeds exactly when the cell is free, and an unlock by anyone
but the owner leaves the cell unchanged. -/
inductive MutexOp where
  | lock (actor : Nat)
  | unlock (actor : Nat)
deriving DecidableEq

/-- One atomic step of the hardware mutex cell. -/
def mutexStep (owner : Option Nat) : MutexOp → Option Nat
  | .lock a => match owner with
    | none => some a
    | some b => some b
  | .unlock a => if owner = some a then none else owner

/-- Run a sequence of atomic mutex operations from an initial owner. -/
def mutexRun (owner : Option Nat) : List MutexOp → Option Nat
  | [] => owner
  | op :: ops => mutexRun (mutexStep owner op) ops

/-- A lock attempt on the cell succeeds exactly when it is free. -/
def mutexLockOk (owner : Option Nat) : Bool := owner.isNone

/-- Predicate: the event is a directory slot read. -/
def Ev.isReadSlot : Ev → Bool
  | .readSlot _ _ => true
  | _ => false

/-- Predicate: the event is the device mutex unlock. -/
def Ev.isUnlockDev : Ev → Bool
  | .unlockDev _ => true
  | _ => false

/-- Predicate: the event is the device mutex free. -/
def Ev.isFreeDevMutex : Ev → Bool
  | .freeDevMutex => true
  | _ => false

/-- Predicate: the event is a successful per-entry mutex allocation. -/
def Ev.isAllocEntryOk : Ev → Bool
  | .allocEntryMutex ok => ok
  | _ => false

/-- Predicate: the event is the per-entry mutex free. -/
def Ev.isFreeEntryMutex : Ev → Bool
  | .freeEntryMutex => true
  | _ => false

/-- Number of directory entry reads recorded in a trace. -/
def countReads (tr : List Ev) : Nat := tr.countP Ev.isReadSlot

/-- Scenario A entry: name "fw.cache", region {action 0, token 0, target 7,
page_offset 4, page_size 2}, key derived from the name. -/
def fwCacheName : List Nat := [0x66, 0x77, 0x2e, 0x63, 0x61, 0x63, 0x68, 0x65]

/-- Scenario A's single populated table entry. -/
def fwCacheEntry : nfp_resource_entry :=
  { mutex := { owner := 0, key := nfp_resource_key fwCacheName }
    region := { name := fwCacheName, reserved := List.replicate 5 0,
                cpp_action := 0, cpp_token := 0, cpp_target := 7,
                page_offset := 4, page_size := 2 } }

/-- Scenario A environment: entry at slot 0, everything healthy. -/
def fwCacheEnv : AcquireEnv :=
  { resAllocOk := true, devMutexAllocOk := true, devLockResult := 0,
    devUnlockResult := 0, table := fun _ => some fwCacheEntry,
    entryMutexAllocOk := true, entryLockResult := 0 }

/-- Scenario B name "missing_". -/
def missingName : List Nat := [0x6d, 0x69, 0x73, 0x73, 0x69, 0x6e, 0x67, 0x5f]

/-- A populated entry whose key (1) matches no derived key used in the
scenarios. -/
def missEntry : nfp_resource_entry :=
  { mutex := { owner := 0, key := 1 }
    region := { name := List.replicate 8 0, reserved := List.replicate 5 0,
                cpp_action := 0, cpp_token := 0, cpp_target := 0,
                page_offset := 0, page_size := 0 } }

/-- Scenario B environment: every slot populated with a non-matching entry. -/
def missEnv : AcquireEnv :=
  { resAllocOk := true, devMutexAllocOk := true, devLockResult := 0,
    devUnlockResult := 0, table := fun _ => some missEntry,
    entryMutexAllocOk := true, entryLockResult := 0 }

/-- Scenario C table: slot 50 reads short, all other slots populated with
the non-matching entry. -/
def scenCTable (i : Nat) : Option nfp_resource_entry :=
  if i = 50 then none else some missEntry

/-- Scenario C environment. -/
def scenCEnv : AcquireEnv :=
  { resAllocOk := true, devMutexAllocOk := true, devLockResult := 0,
    devUnlockResult := 0, table := scenCTable,
    entryMutexAllocOk := true, entryLockResult := 0 }

/-- Environment whose every slot read returns short (slot 0 aborts). -/
def allShortEnv : AcquireEnv :=
  { resAllocOk := true, devMutexAllocOk := true, devLockResult := 0,
    devUnlockResult := 0, table := fun _ => none,
    entryMutexAllocOk := true, entryLockResult := 0 }

/-- Environment in which the per-entry mutex allocation fails while the
matching entry is found at slot 0 and everything else is healthy. -/
def allocFailEnv : AcquireEnv :=
  { resAllocOk := true, devMutexAllocOk := true, devLockResult := 0,
    devUnlockResult := 0, table := fun _ => some fwCacheEntry,
    entryMutexAllocOk := false, entryLockResult := 0 }

/-- The handle Scenario A's acquire returns. -/
def fwCacheRes : nfp_resource :=
  { name := strncpyPad fwCacheName NFP_RESOURCE_ENTRY_NAME_SZ ++ [0]
    cpp_id := NFP_CPP_ID 7 0 0
    addr := 1024
    size := 512
    mutex := some ⟨NFP_RESOURCE_TBL_TARGET, NFP_RESOURCE_TBL_BASE,
                   nfp_resource_key fwCacheName⟩ }

/-- The event trace Scenario A's acquire produces. -/
def fwCacheTr : List Ev :=
  [.allocDevMutex true, .lockDev 0, .readSlot 0 true, .allocEntryMutex true,
   .lockEntry 0, .unlockDev 0, .freeDevMutex]

/-- A 12-byte caller name (three times longer than fits, no terminator). -/
def longName : List Nat := List.replicate 12 0x61

/-- Table entry matching `longName`. -/
def longEntry : nfp_resource_entry :=
  { mutex := { owner := 0, key := nfp_resource_key longName }
    region := { name := List.replicate 8 0x61, reserved := List.replicate 5 0,
                cpp_action := 1, cpp_token := 2, cpp_target := 3,
                page_offset := 5, page_size := 6 } }

/-- Healthy environment holding `longEntry` in every slot. -/
def longEnv : AcquireEnv :=
  { resAllocOk := true, devMutexAllocOk := true, devLockResult := 0,
    devUnlockResult := 0, table := fun _ => some longEntry,
    entryMutexAllocOk := true, entryLockResult := 0 }

/-- The handle acquired for `longName`. -/
def longRes : nfp_resource :=
  { name := List.replicate 8 0x61 ++ [0]
    cpp_id := NFP_CPP_ID 3 1 2
    addr := 5 <<< 8
    size := 6 <<< 8
    mutex := some ⟨NFP_RESOURCE_TBL_TARGET, NFP_RESOURCE_TBL_BASE,
                   nfp_resource_key longName⟩ }

/-- The trace of that acquire. -/
def longTr : List Ev :=
  [.allocDevMutex true, .lockDev 0, .readSlot 0 true, .allocEntryMutex true,
   .lockEntry 0, .unlockDev 0, .freeDevMutex]

/-- The scan over consecutive slots that all read successfully and all
mismatch the key reports not-found, having read exactly those slots. -/
theorem scanSlots_notFound (table : Nat → Option nfp_resource_entry) (key : Nat) :
    ∀ n s, (∀ j, s ≤ j → j < s + n → ∃ e, table j = some e ∧ e.mutex.key ≠ key) →
      scanSlots table key (List.range' s n) =
        (.notFound, (List.range' s n).map (fun j => Ev.readSlot j true)) := by
  intro n
  induction n with
  | zero => intro s _; rfl
  | succ n ih =>
    intro s h
    obtain ⟨e, he, hk⟩ := h s le_rfl (by omega)
    rw [List.range'_succ]
    simp only [scanSlots, he, List.map_cons]
    rw [if_neg hk, ih (s + 1) (fun j h1 h2 => h j (by omega) (by omega))]

/-- A short read at slot k aborts the scan at slot k: the slots before k
(all successful mismatches) and k itself are the only reads issued. -/
theorem scanSlots_shortRead (table : Nat → Option nfp_resource_entry) (key : Nat) :
    ∀ n s k, s ≤ k → k < s + n → table k = none →
      (∀ j, s ≤ j → j < k → ∃ e, table j = some e ∧ e.mutex.key ≠ key) →
      scanSlots table key (List.range' s n) =
        (.shortRead k,
         (List.range' s (k - s)).map (fun j => Ev.readSlot j true) ++ [Ev.readSlot k false]) := by
  intro n
  induction n with
  | zero => intro s k h1 h2 _ _; omega
  | succ n ih =>
    intro s k hsk hk hnone hbefore
    rw [List.range'_succ]
    rcases Nat.eq_or_lt_of_le hsk with heq | hlt
    · subst heq
      simp only [scanSlots, hnone, Nat.sub_self]
      simp
    · obtain ⟨e, he, hke⟩ := hbefore s le_rfl hlt
      simp only [scanSlots, he]
      rw [if_neg hke, ih (s + 1) k hlt (by omega) hnone (fun j h1 h2 => hbefore j (by omega) h2)]
      have hks : k - s = (k - (s + 1)) + 1 := by omega
      rw [hks, List.range'_succ]
      simp

/-- A first key match at slot k stops the scan there with that entry. -/
theorem scanSlots_found (table : Nat → Option nfp_resource_entry) (key : Nat) :
    ∀ n s k e, s ≤ k → k < s + n → table k = some e → e.mutex.key = key →
      (∀ j, s ≤ j → j < k → ∃ e2, table j = some e2 ∧ e2.mutex.key ≠ key) →
      scanSlots table key (List.range' s n) =
        (.found k e,
         (List.range' s (k - s)).map (fun j => Ev.readSlot j true) ++ [Ev.readSlot k true]) := by
  intro n
  induction n with
  | zero => intro s k e h1 h2 _ _ _; omega
  | succ n ih =>
    intro s k e hsk hk hsome hkey hbefore
    rw [List.range'_succ]
    rcases Nat.eq_or_lt_of_le hsk with heq | hlt
    · subst heq
      simp only [scanSlots, hsome, Nat.sub_self]
      rw [if_pos hkey]
      simp
    · obtain ⟨e2, he2, hke2⟩ := hbefore s le_rfl hlt
      simp only [scanSlots, he2]
      rw [if_neg hke2,
        ih (s + 1) k e hlt (by omega) hsome hkey (fun j h1 h2 => hbefore j (by omega) h2)]
      have hks : k - s = (k - (s + 1)) + 1 := by omega
      rw [hks, List.range'_succ]
      simp

/-- Every event emitted by the scan loop is a slot read. -/
theorem scanSlots_events (table : Nat → Option nfp_resource_entry) (key : Nat) :
    ∀ slots ev, ev ∈ (scanSlots table key slots).2 → ev.isReadSlot = true := by
  intro slots
  induction slots with
  | nil => intro ev h; cases h
  | cons i rest ih =>
    intro ev h
    cases htab : table i with
    | none =>
      simp only [scanSlots, htab] at h
      simp at h
      subst h
      rfl
    | some e =>
      by_cases hkey : e.mutex.key = key
      · simp only [scanSlots, htab, if_pos hkey] at h
        simp at h
        subst h
        rfl
      · simp only [scanSlots, htab, if_neg hkey] at h
        simp at h
        rcases h with h | h
        · subst h; rfl
        · exact ih ev h

/-- A predicate false on every slot read counts zero on the scan trace. -/
theorem countP_scan_zero (table : Nat → Option nfp_resource_entry) (key : Nat)
    (slots : List Nat) (p : Ev → Bool) (hp : ∀ j b, p (Ev.readSlot j b) = false) :
    (scanSlots table key slots).2.countP p = 0 := by
  rw [List.countP_eq_zero]
  intro ev hev
  have hr := scanSlots_events table key slots ev hev
  cases ev with
  | readSlot j b => simp [hp j b]
  | allocDevMutex ok => exact Bool.noConfusion hr
  | lockDev r => exact Bool.noConfusion hr
  | unlockDev r => exact Bool.noConfusion hr
  | freeDevMutex => exact Bool.noConfusion hr
  | allocEntryMutex ok => exact Bool.noConfusion hr
  | lockEntry r => exact Bool.noConfusion hr
  | unlockEntry r => exact Bool.noConfusion hr
  | freeEntryMutex => exact Bool.noConfusion hr
  | freeRes => exact Bool.noConfusion hr
  | logUnlockFailed => exact Bool.noConfusion hr

/-- Event counts of nfp_device_unlock: exactly one device unlock and one
device mutex free, and nothing touching the per-entry mutex. -/
theorem devUnlock_counts (env : AcquireEnv) :
    (nfp_device_unlock env).countP Ev.isUnlockDev = 1 ∧
    (nfp_device_unlock env).countP Ev.isFreeDevMutex = 1 ∧
    (nfp_device_unlock env).countP Ev.isAllocEntryOk = 0 ∧
    (nfp_device_unlock env).countP Ev.isFreeEntryMutex = 0 := by
  unfold nfp_device_unlock
  split <;>
    simp [List.countP_cons, Ev.isUnlockDev, Ev.isFreeDevMutex, Ev.isAllocEntryOk,
      Ev.isFreeEntryMutex]

/-- When the device mutex allocates and locks cleanly, nfp_device_lock
returns the device mutex handle. -/
theorem nfp_device_lock_ok (env : AcquireEnv)
    (hda : env.devMutexAllocOk = true) (hdl : env.devLockResult = 0) :
    nfp_device_lock env =
      (some ⟨NFP_RESOURCE_TBL_TARGET, NFP_RESOURCE_TBL_BASE, NFP_RESOURCE_TBL_KEY⟩,
       [.allocDevMutex true, .lockDev 0]) := by
  simp [nfp_device_lock, hda, hdl]

/-- nfp_cpp_resource_find on a scan that found slot k: fills the record
from the entry and stores the (unchecked) mutex allocation result. -/
theorem find_found (fenv : FindEnv) (name : List Nat) (res : nfp_resource)
    (k : Nat) (e : nfp_resource_entry) (sevs : List Ev)
    (hscan : scanSlots fenv.table (nfp_resource_key name)
        (List.range NFP_RESOURCE_TBL_ENTRIES) = (.found k e, sevs)) :
    nfp_cpp_resource_find fenv name res =
      (0,
       { res with
         mutex := if fenv.entryMutexAllocOk then
             some ⟨NFP_RESOURCE_TBL_TARGET,
                   NFP_RESOURCE_TBL_BASE + sizeof_nfp_resource_entry * k,
                   nfp_resource_key name⟩
           else none
         cpp_id := NFP_CPP_ID e.region.cpp_target e.region.cpp_action e.region.cpp_token
         addr := e.region.page_offset <<< 8
         size := e.region.page_size <<< 8 },
       sevs ++ [.allocEntryMutex fenv.entryMutexAllocOk]) := by
  simp only [nfp_cpp_resource_find, hscan]

/-- nfp_cpp_resource_find on a scan aborted by a short read returns -EIO
with the record untouched. -/
theorem find_shortRead (fenv : FindEnv) (name : List Nat) (res : nfp_resource)
    (k : Nat) (sevs : List Ev)
    (hscan : scanSlots fenv.table (nfp_resource_key name)
        (List.range NFP_RESOURCE_TBL_ENTRIES) = (.shortRead k, sevs)) :
    nfp_cpp_resource_find fenv name res = (-5, res, sevs) := by
  simp only [nfp_cpp_resource_find, hscan]

/-- nfp_cpp_resource_find on an exhausted scan returns -ENOENT with the
record untouched. -/
theorem find_notFound (fenv : FindEnv) (name : List Nat) (res : nfp_resource)
    (sevs : List Ev)
    (hscan : scanSlots fenv.table (nfp_resource_key name)
        (List.range NFP_RESOURCE_TBL_ENTRIES) = (.notFound, sevs)) :
    nfp_cpp_resource_find fenv name res = (-2, res, sevs) := by
  simp only [nfp_cpp_resource_find, hscan]

/-- Counting slot reads in a trace made only of slot-read events. -/
theorem countReads_map_readSlot (l : List Nat) (b : Bool) :
    (l.map (fun j => Ev.readSlot j b)).countP Ev.isReadSlot = l.length := by
  induction l with
  | nil => rfl
  | cons a l ih => simp [List.countP_cons, Ev.isReadSlot, ih]

/-- nfp_device_unlock issues no directory reads. -/
theorem devUnlock_no_readSlot (env : AcquireEnv) (j : Nat) (b : Bool) :
    Ev.readSlot j b ∉ nfp_device_unlock env := by
  unfold nfp_device_unlock
  split <;> simp

/-- nfp_device_unlock's trace counts zero slot reads. -/
theorem devUnlock_countReads (env : AcquireEnv) :
    (nfp_device_unlock env).countP Ev.isReadSlot = 0 := by
  unfold nfp_device_unlock
  split <;> simp [List.countP_cons, Ev.isReadSlot]

/-- C1: on a table whose first entry with mutex key equal to the derived
key sits at slot k (all earlier slots readable and non-matching), with the
allocations and mutex operations succeeding, acquire returns a handle
built from that first matching entry: cpp_id packed from the entry's
{cpp_target, cpp_action, cpp_token}, address = page_offset << 8, size =
page_size << 8, holding the per-entry lock allocated at that entry's table
address under the derived key. -/
theorem C1_acquire_first_match (env : AcquireEnv) (name : List Nat) (k : Nat)
    (e : nfp_resource_entry)
    (hra : env.resAllocOk = true) (hda : env.devMutexAllocOk = true)
    (hdl : env.devLockResult = 0) (hea : env.entryMutexAllocOk = true)
    (hel : env.entryLockResult = 0)
    (hk : k < NFP_RESOURCE_TBL_ENTRIES)
    (hke : env.table k = some e) (hmatch : e.mutex.key = nfp_resource_key name)
    (hbefore : ∀ j, j < k →
      ∃ e2, env.table j = some e2 ∧ e2.mutex.key ≠ nfp_resource_key name) :
    (nfp_resource_acquire env name).1 = .ok
      { name := strncpyPad name NFP_RESOURCE_ENTRY_NAME_SZ ++ [0]
        cpp_id := NFP_CPP_ID e.region.cpp_target e.region.cpp_action e.region.cpp_token
        addr := e.region.page_offset <<< 8
        size := e.region.page_size <<< 8
        mutex := some ⟨NFP_RESOURCE_TBL_TARGET,
                       NFP_RESOURCE_TBL_BASE + sizeof_nfp_resource_entry * k,
                       nfp_resource_key name⟩ } := by
  have hscan : scanSlots env.table (nfp_resource_key name)
      (List.range NFP_RESOURCE_TBL_ENTRIES) =
      (.found k e,
       (List.range' 0 k).map (fun j => Ev.readSlot j true) ++ [Ev.readSlot k true]) := by
    rw [List.range_eq_range']
    have h := scanSlots_found env.table (nfp_resource_key name)
      NFP_RESOURCE_TBL_ENTRIES 0 k e (Nat.zero_le k) (by omega) hke hmatch
      (fun j h1 h2 => hbefore j h2)
    simpa using h
  have hfind := find_found ⟨env.table, env.entryMutexAllocOk⟩ name (initRes name) k e _ hscan
  simp only [hea] at hfind
  simp at hfind
  simp only [nfp_resource_acquire, hra, nfp_device_lock_ok env hda hdl, hea]
  rw [hfind]
  simp [initRes, hel]

set_option maxRecDepth 100000 in
/-- Witness for C1 (Scenario A): acquire("fw.cache") succeeds and the
handle reports address 1024 and size 512. -/
theorem C1_acquire_first_match_witness :
    (nfp_resource_acquire fwCacheEnv fwCacheName).1 = .ok
      { name := strncpyPad fwCacheName NFP_RESOURCE_ENTRY_NAME_SZ ++ [0]
        cpp_id := NFP_CPP_ID 7 0 0
        addr := 4 <<< 8
        size := 2 <<< 8
        mutex := some ⟨NFP_RESOURCE_TBL_TARGET, NFP_RESOURCE_TBL_BASE,
                       nfp_resource_key fwCacheName⟩ } ∧
    nfp_resource_address
      { name := strncpyPad fwCacheName NFP_RESOURCE_ENTRY_NAME_SZ ++ [0]
        cpp_id := NFP_CPP_ID 7 0 0
        addr := 4 <<< 8
        size := 2 <<< 8
        mutex := some ⟨NFP_RESOURCE_TBL_TARGET, NFP_RESOURCE_TBL_BASE,
                       nfp_resource_key fwCacheName⟩ } = 1024 ∧
    nfp_resource_size
      { name := strncpyPad fwCacheName NFP_RESOURCE_ENTRY_NAME_SZ ++ [0]
        cpp_id := NFP_CPP_ID 7 0 0
        addr := 4 <<< 8
        size := 2 <<< 8
        mutex := some ⟨NFP_RESOURCE_TBL_TARGET, NFP_RESOURCE_TBL_BASE,
                       nfp_resource_key fwCacheName⟩ } = 512 := by
  refine ⟨?_, by decide, by decide⟩
  have h := C1_acquire_first_match fwCacheEnv fwCacheName 0 fwCacheEntry
    rfl rfl rfl rfl rfl (by decide) rfl rfl (fun j hj => absurd hj (by omega))
  simpa [fwCacheEntry] using h

/-- C2 (amended): the 4096-byte directory table is divided into 32-byte
entries, giving 128 usable entries, and the scan visits every slot:
acquire of a name whose derived key matches no entry in a fully populated
(readable) table returns -ENOENT after exactly 128 entry reads. -/
theorem C2_full_table_notFound (env : AcquireEnv) (name : List Nat)
    (hra : env.resAllocOk = true) (hda : env.devMutexAllocOk = true)
    (hdl : env.devLockResult = 0)
    (hfull : ∀ i, i < NFP_RESOURCE_TBL_ENTRIES →
      ∃ e, env.table i = some e ∧ e.mutex.key ≠ nfp_resource_key name) :
    sizeof_nfp_resource_entry = 32 ∧
    NFP_RESOURCE_TBL_ENTRIES = 128 ∧
    (nfp_resource_acquire env name).1 = .err (-2) ∧
    countReads (nfp_resource_acquire env name).2 = 128 := by
  have hscan : scanSlots env.table (nfp_resource_key name)
      (List.range NFP_RESOURCE_TBL_ENTRIES) =
      (.notFound,
       (List.range' 0 NFP_RESOURCE_TBL_ENTRIES).map (fun j => Ev.readSlot j true)) := by
    rw [List.range_eq_range']
    exact scanSlots_notFound env.table (nfp_resource_key name) NFP_RESOURCE_TBL_ENTRIES 0
      (fun j h1 h2 => hfull j (by omega))
  have hfind := find_notFound ⟨env.table, env.entryMutexAllocOk⟩ name (initRes name) _ hscan
  have hq : nfp_resource_acquire env name =
      (.err (-2),
       [.allocDevMutex true, .lockDev 0] ++
         (List.range' 0 NFP_RESOURCE_TBL_ENTRIES).map (fun j => Ev.readSlot j true) ++
         nfp_device_unlock env ++ [.freeRes]) := by
    simp only [nfp_resource_acquire, hra, nfp_device_lock_ok env hda hdl]
    rw [hfind]
    simp
  refine ⟨?_, ?_, ?_, ?_⟩
  · decide
  · decide
  · rw [hq]
  · rw [hq]
    simp only [countReads, List.countP_append, countReads_map_readSlot,
      devUnlock_countReads]
    simp [List.countP_cons, Ev.isReadSlot]
    decide

set_option maxRecDepth 100000 in
/-- Witness for C2 (Scenario B): acquire("missing_") on the fully populated
non-matching table returns -ENOENT after exactly 128 reads. -/
theorem C2_full_table_notFound_witness :
    (nfp_resource_acquire missEnv missingName).1 = .err (-2) ∧
    countReads (nfp_resource_acquire missEnv missingName).2 = 128 := by
  have h := C2_full_table_notFound missEnv missingName rfl rfl rfl
    (fun i _ => ⟨missEntry, rfl, by decide⟩)
  exact ⟨h.2.2.1, h.2.2.2⟩

set_option maxRecDepth 1000000 in
/-- Counterexample to C2 as stated: the entry size is not 24 bytes, the
table does not hold 170 entries, and the fully populated non-matching scan
of Scenario B performs 128 reads, not 170. -/
theorem C2_full_table_notFound_counterexample :
    sizeof_nfp_resource_entry ≠ 24 ∧
    NFP_RESOURCE_TBL_ENTRIES ≠ 170 ∧
    (nfp_resource_acquire missEnv missingName).1 = .err (-2) ∧
    countReads (nfp_resource_acquire missEnv missingName).2 ≠ 170 := by
  refine ⟨?_, ?_, ?_, ?_⟩ <;> decide

/-- C4: if the entry read at slot k returns short (all earlier slots
readable and non-matching, so the scan reaches k), the scan aborts at k
and acquire reports -EIO: exactly k+1 reads are issued, no slot beyond k
is ever read, and the failure is not converted to -ENOENT (nor to a
match). -/
theorem C4_short_read_aborts (env : AcquireEnv) (name : List Nat) (k : Nat)
    (hra : env.resAllocOk = true) (hda : env.devMutexAllocOk = true)
    (hdl : env.devLockResult = 0)
    (hk : k < NFP_RESOURCE_TBL_ENTRIES)
    (hnone : env.table k = none)
    (hbefore : ∀ j, j < k →
      ∃ e, env.table j = some e ∧ e.mutex.key ≠ nfp_resource_key name) :
    (nfp_resource_acquire env name).1 = .err (-5) ∧
    countReads (nfp_resource_acquire env name).2 = k + 1 ∧
    ∀ j b, Ev.readSlot j b ∈ (nfp_resource_acquire env name).2 → j ≤ k := by
  have hscan : scanSlots env.table (nfp_resource_key name)
      (List.range NFP_RESOURCE_TBL_ENTRIES) =
      (.shortRead k,
       (List.range' 0 k).map (fun j => Ev.readSlot j true) ++ [Ev.readSlot k false]) := by
    rw [List.range_eq_range']
    have h := scanSlots_shortRead env.table (nfp_resource_key name)
      NFP_RESOURCE_TBL_ENTRIES 0 k (Nat.zero_le k) (by omega) hnone
      (fun j h1 h2 => hbefore j h2)
    simpa using h
  have hfind := find_shortRead ⟨env.table, env.entryMutexAllocOk⟩ name (initRes name) k _ hscan
  have hq : nfp_resource_acquire env name =
      (.err (-5),
       [.allocDevMutex true, .lockDev 0] ++
         ((List.range' 0 k).map (fun j => Ev.readSlot j true) ++ [Ev.readSlot k false]) ++
         nfp_device_unlock env ++ [.freeRes]) := by
    simp only [nfp_resource_acquire, hra, nfp_device_lock_ok env hda hdl]
    rw [hfind]
    simp
  refine ⟨?_, ?_, ?_⟩
  · rw [hq]
  · rw [hq]
    simp only [countReads, List.countP_append, countReads_map_readSlot,
      devUnlock_countReads]
    simp [List.countP_cons, Ev.isReadSlot]
  · intro j b hmem
    rw [hq] at hmem
    have hscanMem : Ev.readSlot j b ∈
        (List.range' 0 k).map (fun j => Ev.readSlot j true) ++ [Ev.readSlot k false] := by
      rcases List.mem_append.1 hmem with h | h
      · rcases List.mem_append.1 h with h2 | h2
        · rcases List.mem_append.1 h2 with h3 | h3
          · simp at h3
          · exact h3
        · exact absurd h2 (devUnlock_no_readSlot env j b)
      · simp at h
    rcases List.mem_append.1 hscanMem with h | h
    · rcases List.mem_map.1 h with ⟨x, hx, hxe⟩
      have hxk := List.mem_range'_1.1 hx
      cases hxe
      omega
    · simp only [List.mem_singleton] at h
      simp at h
      exact le_of_eq h.1

set_option maxRecDepth 100000 in
/-- Witness for C4 (Scenario C): a short read at slot 50 yields -EIO after
exactly 51 reads; slot 51 is never read. -/
theorem C4_short_read_aborts_witness :
    (nfp_resource_acquire scenCEnv missingName).1 = .err (-5) ∧
    countReads (nfp_resource_acquire scenCEnv missingName).2 = 51 ∧
    ∀ b, Ev.readSlot 51 b ∉ (nfp_resource_acquire scenCEnv missingName).2 := by
  have h := C4_short_read_aborts scenCEnv missingName 50 rfl rfl rfl (by decide) rfl
    (fun j hj => ⟨missEntry, by simp [scenCEnv, scenCTable]; omega, by decide⟩)
  exact ⟨h.1, h.2.1, fun b hb => by have := h.2.2 51 b hb; omega⟩

/-- C3: the key derivation is a pure function of the 8-byte zero-padded
name: the reserved self-descriptor padded name gets the fixed sentinel
key, every other padded name gets crc32_posix of the fixed 8-byte padded
buffer, and equal padded forms always derive equal keys (derivation is
total: it has no failure mode). -/
theorem C3_key_derivation :
    (∀ name, strncpyPad name NFP_RESOURCE_ENTRY_NAME_SZ = resource_table_name_pad →
      nfp_resource_key name = NFP_RESOURCE_TBL_KEY) ∧
    (∀ name, strncpyPad name NFP_RESOURCE_ENTRY_NAME_SZ ≠ resource_table_name_pad →
      nfp_resource_key name = crc32_posix (strncpyPad name NFP_RESOURCE_ENTRY_NAME_SZ)) ∧
    (∀ n1 n2, strncpyPad n1 NFP_RESOURCE_ENTRY_NAME_SZ = strncpyPad n2 NFP_RESOURCE_ENTRY_NAME_SZ →
      nfp_resource_key n1 = nfp_resource_key n2) := by
  refine ⟨?_, ?_, ?_⟩
  · intro name h
    simp only [nfp_resource_key, h, if_pos]
  · intro name h
    simp only [nfp_resource_key, h, if_neg, ite_false]
  · intro n1 n2 h
    simp only [nfp_resource_key, h]

set_option maxRecDepth 100000 in
/-- Witness for C3: "abc" and "abc" with two explicit trailing NULs have
equal padded forms, hence equal keys; the self-descriptor name derives the
sentinel key; a distinct name derives the crc32_posix of its padding. -/
theorem C3_key_derivation_witness :
    nfp_resource_key [0x61, 0x62, 0x63] = nfp_resource_key [0x61, 0x62, 0x63, 0, 0] ∧
    nfp_resource_key NFP_RESOURCE_TBL_NAME = NFP_RESOURCE_TBL_KEY ∧
    nfp_resource_key missingName =
      crc32_posix (strncpyPad missingName NFP_RESOURCE_ENTRY_NAME_SZ) := by
  refine ⟨?_, ?_, ?_⟩
  · exact C3_key_derivation.2.2 [0x61, 0x62, 0x63] [0x61, 0x62, 0x63, 0, 0] (by decide)
  · exact C3_key_derivation.1 NFP_RESOURCE_TBL_NAME (by decide)
  · exact C3_key_derivation.2.1 missingName (by decide)

/-- C5: on every failing path of acquire entered after the device lock was
taken (scan I/O failure, key not found, per-entry lock failure), the
device lock is unlocked exactly once and its allocation freed exactly
once, every successful per-entry mutex allocation is matched by a free,
and the resource record is freed before the error returns. -/
theorem C5_failure_cleanup (env : AcquireEnv) (name : List Nat) (e : Int)
    (herr : (nfp_resource_acquire env name).1 = .err e)
    (hra : env.resAllocOk = true) (hda : env.devMutexAllocOk = true)
    (hdl : env.devLockResult = 0) :
    (nfp_resource_acquire env name).2.countP Ev.isUnlockDev = 1 ∧
    (nfp_resource_acquire env name).2.countP Ev.isFreeDevMutex = 1 ∧
    (nfp_resource_acquire env name).2.countP Ev.isAllocEntryOk =
      (nfp_resource_acquire env name).2.countP Ev.isFreeEntryMutex ∧
    Ev.freeRes ∈ (nfp_resource_acquire env name).2 := by
  obtain ⟨hd1, hd2, hd3, hd4⟩ := devUnlock_counts env
  rcases hscan : scanSlots env.table (nfp_resource_key name)
      (List.range NFP_RESOURCE_TBL_ENTRIES) with ⟨sr, sevs⟩
  have hzs : ∀ p : Ev → Bool, (∀ j b, p (Ev.readSlot j b) = false) →
      sevs.countP p = 0 := by
    intro p hp
    have h := countP_scan_zero env.table (nfp_resource_key name)
      (List.range NFP_RESOURCE_TBL_ENTRIES) p hp
    rw [hscan] at h
    exact h
  cases sr with
  | shortRead j =>
    have hq : nfp_resource_acquire env name =
        (.err (-5), [.allocDevMutex true, .lockDev 0] ++ sevs ++
          nfp_device_unlock env ++ [.freeRes]) := by
      simp only [nfp_resource_acquire, hra, nfp_device_lock_ok env hda hdl]
      rw [find_shortRead ⟨env.table, env.entryMutexAllocOk⟩ name (initRes name) j sevs hscan]
      simp
    rw [hq]
    refine ⟨?_, ?_, ?_, ?_⟩
    · simp only [List.countP_append, hd1, hzs Ev.isUnlockDev (fun j b => rfl)]
      decide
    · simp only [List.countP_append, hd2, hzs Ev.isFreeDevMutex (fun j b => rfl)]
      decide
    · simp only [List.countP_append, hd3, hd4,
        hzs Ev.isAllocEntryOk (fun j b => rfl), hzs Ev.isFreeEntryMutex (fun j b => rfl)]
      decide
    · simp
  | notFound =>
    have hq : nfp_resource_acquire env name =
        (.err (-2), [.allocDevMutex true, .lockDev 0] ++ sevs ++
          nfp_device_unlock env ++ [.freeRes]) := by
      simp only [nfp_resource_acquire, hra, nfp_device_lock_ok env hda hdl]
      rw [find_notFound ⟨env.table, env.entryMutexAllocOk⟩ name (initRes name) sevs hscan]
      simp
    rw [hq]
    refine ⟨?_, ?_, ?_, ?_⟩
    · simp only [List.countP_append, hd1, hzs Ev.isUnlockDev (fun j b => rfl)]
      decide
    · simp only [List.countP_append, hd2, hzs Ev.isFreeDevMutex (fun j b => rfl)]
      decide
    · simp only [List.countP_append, hd3, hd4,
        hzs Ev.isAllocEntryOk (fun j b => rfl), hzs Ev.isFreeEntryMutex (fun j b => rfl)]
      decide
    · simp
  | found k e2 =>
    have hfind := find_found ⟨env.table, env.entryMutexAllocOk⟩ name (initRes name) k e2 sevs hscan
    cases hema : env.entryMutexAllocOk with
    | false =>
      simp only [hema] at hfind
      simp at hfind
      have hq : (nfp_resource_acquire env name).1 = .nullDeref := by
        simp only [nfp_resource_acquire, hra, nfp_device_lock_ok env hda hdl, hema]
        rw [hfind]
        simp
      rw [hq] at herr
      exact absurd herr (by simp)
    | true =>
      simp only [hema] at hfind
      simp at hfind
      by_cases hel : env.entryLockResult = 0
      · have hq : (nfp_resource_acquire env name).1 = .ok
            { name := (initRes name).name
              cpp_id := NFP_CPP_ID e2.region.cpp_target e2.region.cpp_action e2.region.cpp_token
              addr := e2.region.page_offset <<< 8
              size := e2.region.page_size <<< 8
              mutex := some ⟨NFP_RESOURCE_TBL_TARGET,
                             NFP_RESOURCE_TBL_BASE + sizeof_nfp_resource_entry * k,
                             nfp_resource_key name⟩ } := by
          simp only [nfp_resource_acquire, hra, nfp_device_lock_ok env hda hdl, hema]
          rw [hfind]
          simp [hel]
        rw [hq] at herr
        exact absurd herr (by simp)
      · have hq : nfp_resource_acquire env name =
            (.err env.entryLockResult,
             [.allocDevMutex true, .lockDev 0] ++ (sevs ++ [.allocEntryMutex true]) ++
               [.lockEntry env.entryLockResult, .freeEntryMutex] ++
               nfp_device_unlock env ++ [.freeRes]) := by
          simp only [nfp_resource_acquire, hra, nfp_device_lock_ok env hda hdl, hema]
          rw [hfind]
          simp [hel]
        rw [hq]
        refine ⟨?_, ?_, ?_, ?_⟩
        · simp only [List.countP_append, hd1, hzs Ev.isUnlockDev (fun j b => rfl)]
          simp [List.countP_cons, Ev.isUnlockDev]
        · simp only [List.countP_append, hd2, hzs Ev.isFreeDevMutex (fun j b => rfl)]
          simp [List.countP_cons, Ev.isFreeDevMutex]
        · simp only [List.countP_append, hd3, hd4,
            hzs Ev.isAllocEntryOk (fun j b => rfl), hzs Ev.isFreeEntryMutex (fun j b => rfl)]
          simp [List.countP_cons, Ev.isAllocEntryOk, Ev.isFreeEntryMutex]
        · simp

set_option maxRecDepth 100000 in
/-- Witness for C5: the -EIO failure at slot 0 unlocks and frees the
device mutex exactly once, leaves no per-entry allocation outstanding, and
frees the record. -/
theorem C5_failure_cleanup_witness :
    (nfp_resource_acquire allShortEnv missingName).2.countP Ev.isUnlockDev = 1 ∧
    (nfp_resource_acquire allShortEnv missingName).2.countP Ev.isFreeDevMutex = 1 ∧
    (nfp_resource_acquire allShortEnv missingName).2.countP Ev.isAllocEntryOk =
      (nfp_resource_acquire allShortEnv missingName).2.countP Ev.isFreeEntryMutex ∧
    Ev.freeRes ∈ (nfp_resource_acquire allShortEnv missingName).2 :=
  C5_failure_cleanup allShortEnv missingName (-5) (by decide) rfl rfl rfl

/-- Inversion of a successful acquire: the scan found a first matching
entry, and the returned handle is exactly the record nfp_cpp_resource_find
built from it. -/
theorem acquire_ok_inv (env : AcquireEnv) (name : List Nat) (res : nfp_resource)
    (tr : List Ev) (h : nfp_resource_acquire env name = (.ok res, tr)) :
    ∃ k e sevs,
      scanSlots env.table (nfp_resource_key name) (List.range NFP_RESOURCE_TBL_ENTRIES) =
        (.found k e, sevs) ∧
      res = { name := strncpyPad name NFP_RESOURCE_ENTRY_NAME_SZ ++ [0]
              cpp_id := NFP_CPP_ID e.region.cpp_target e.region.cpp_action e.region.cpp_token
              addr := e.region.page_offset <<< 8
              size := e.region.page_size <<< 8
              mutex := some ⟨NFP_RESOURCE_TBL_TARGET,
                             NFP_RESOURCE_TBL_BASE + sizeof_nfp_resource_entry * k,
                             nfp_resource_key name⟩ } := by
  cases hra : env.resAllocOk with
  | false => simp [nfp_resource_acquire, hra] at h
  | true =>
  cases hda : env.devMutexAllocOk with
  | false => simp [nfp_resource_acquire, hra, nfp_device_lock, hda] at h
  | true =>
  by_cases hdl : env.devLockResult = 0
  case neg =>
    simp [nfp_resource_acquire, hra, nfp_device_lock, hda, hdl] at h
  case pos =>
  rcases hscan : scanSlots env.table (nfp_resource_key name)
      (List.range NFP_RESOURCE_TBL_ENTRIES) with ⟨sr, sevs⟩
  cases sr with
  | shortRead j =>
    rw [show nfp_resource_acquire env name =
      (.err (-5), [.allocDevMutex true, .lockDev 0] ++ sevs ++
        nfp_device_unlock env ++ [.freeRes]) from by
      simp only [nfp_resource_acquire, hra, nfp_device_lock_ok env hda hdl]
      rw [find_shortRead ⟨env.table, env.entryMutexAllocOk⟩ name (initRes name) j sevs hscan]
      simp] at h
    simp at h
  | notFound =>
    rw [show nfp_resource_acquire env name =
      (.err (-2), [.allocDevMutex true, .lockDev 0] ++ sevs ++
        nfp_device_unlock env ++ [.freeRes]) from by
      simp only [nfp_resource_acquire, hra, nfp_device_lock_ok env hda hdl]
      rw [find_notFound ⟨env.table, env.entryMutexAllocOk⟩ name (initRes name) sevs hscan]
      simp] at h
    simp at h
  | found k e =>
    have hfind := find_found ⟨env.table, env.entryMutexAllocOk⟩ name (initRes name) k e sevs hscan
    cases hema : env.entryMutexAllocOk with
    | false =>
      simp only [hema] at hfind
      simp at hfind
      have hq : (nfp_resource_acquire env name).1 = .nullDeref := by
        simp only [nfp_resource_acquire, hra, nfp_device_lock_ok env hda hdl, hema]
        rw [hfind]
        simp
      rw [h] at hq
      simp at hq
    | true =>
      simp only [hema] at hfind
      simp at hfind
      by_cases hel : env.entryLockResult = 0
      · have hq : nfp_resource_acquire env name =
            (.ok { name := (initRes name).name
                   cpp_id := NFP_CPP_ID e.region.cpp_target e.region.cpp_action e.region.cpp_token
                   addr := e.region.page_offset <<< 8
                   size := e.region.page_size <<< 8
                   mutex := some ⟨NFP_RESOURCE_TBL_TARGET,
                                  NFP_RESOURCE_TBL_BASE + sizeof_nfp_resource_entry * k,
                                  nfp_resource_key name⟩ },
             [.allocDevMutex true, .lockDev 0] ++ (sevs ++ [.allocEntryMutex true]) ++
               [.lockEntry 0] ++ nfp_device_unlock env) := by
          simp only [nfp_resource_acquire, hra, nfp_device_lock_ok env hda hdl, hema]
          rw [hfind]
          simp [hel]
        rw [hq] at h
        have hres := congrArg Prod.fst h
        simp only [] at hres
        refine ⟨k, e, sevs, rfl, ?_⟩
        have : AcquireResult.ok
            { name := (initRes name).name
              cpp_id := NFP_CPP_ID e.region.cpp_target e.region.cpp_action e.region.cpp_token
              addr := e.region.page_offset <<< 8
              size := e.region.page_size <<< 8
              mutex := some ⟨NFP_RESOURCE_TBL_TARGET,
                             NFP_RESOURCE_TBL_BASE + sizeof_nfp_resource_entry * k,
                             nfp_resource_key name⟩ } = AcquireResult.ok res := hres
        simp only [AcquireResult.ok.injEq] at this
        rw [← this]
        simp [initRes]
      · have hq : (nfp_resource_acquire env name).1 = .err env.entryLockResult := by
          simp only [nfp_resource_acquire, hra, nfp_device_lock_ok env hda hdl, hema]
          rw [hfind]
          simp [hel]
        rw [h] at hq
        simp at hq

set_option maxRecDepth 100000 in
/-- C6 (code bug): when the per-entry mutex allocation fails,
nfp_cpp_resource_find stores the NULL result without checking and returns
0, so nfp_resource_acquire passes the NULL mutex straight to
nfp_cpp_mutex_lock — a NULL dereference — instead of reporting -ENOMEM
(resource exhaustion) as the claim requires; no ERR_PTR error is ever
produced on this path. -/
theorem C6_alloc_failure_null_deref :
    (nfp_resource_acquire allocFailEnv fwCacheName).1 = .nullDeref ∧
    ∀ e : Int, (nfp_resource_acquire allocFailEnv fwCacheName).1 ≠ .err e := by
  have h : (nfp_resource_acquire allocFailEnv fwCacheName).1 = .nullDeref := by decide
  refine ⟨h, fun e hcontra => ?_⟩
  rw [h] at hcontra
  exact AcquireResult.noConfusion hcontra

/-- C7 (amended): release never fails to its caller — the per-entry mutex
is unlocked, its allocation freed and the record freed regardless of the
unlock outcome — but it ignores the unlock's reported result entirely: no
diagnostic is logged by this layer. -/
theorem C7_release_never_fails (r : Int) :
    nfp_resource_release ⟨r⟩ = [.unlockEntry r, .freeEntryMutex, .freeRes] ∧
    Ev.freeEntryMutex ∈ nfp_resource_release ⟨r⟩ ∧
    Ev.freeRes ∈ nfp_resource_release ⟨r⟩ ∧
    Ev.logUnlockFailed ∉ nfp_resource_release ⟨r⟩ := by
  refine ⟨rfl, ?_, ?_, ?_⟩ <;> simp [nfp_resource_release]

/-- Counterexample to C7 as stated: when the unlock reports an
inconsistency (here -22), release still emits no log event — it discards
the unlock's return value — contradicting the claim that the
inconsistency is logged. -/
theorem C7_release_counterexample :
    (nfp_resource_release ⟨-22⟩).head? = some (Ev.unlockEntry (-22)) ∧
    Ev.logUnlockFailed ∉ nfp_resource_release ⟨-22⟩ := by
  exact ⟨rfl, by decide⟩

/-- C8: two successful acquires of the same name against the same table
lock the same hardware mutex cell (the one at the first matching entry),
and on the modelled atomic mutex cell an owner that has not unlocked keeps
ownership under any other actor's operations — any other lock attempt
fails (observes contention) until the holder releases.  Hence at most one
live handle per name can exist at a time. -/
theorem C8_mutual_exclusion :
    (∀ env env2 name res res2 tr tr2,
      env.table = env2.table →
      nfp_resource_acquire env name = (.ok res, tr) →
      nfp_resource_acquire env2 name = (.ok res2, tr2) →
      res.mutex = res2.mutex) ∧
    (∀ a (ops : List MutexOp), MutexOp.unlock a ∉ ops →
      mutexRun (some a) ops = some a ∧
      mutexLockOk (mutexRun (some a) ops) = false ∧
      ∀ b, mutexStep (mutexRun (some a) ops) (.lock b) = some a) := by
  have key : ∀ a (ops : List MutexOp), MutexOp.unlock a ∉ ops →
      mutexRun (some a) ops = some a := by
    intro a ops
    induction ops with
    | nil => intro _; rfl
    | cons op rest ih =>
      intro hnot
      have hop : op ≠ MutexOp.unlock a := by
        intro he
        exact hnot (he ▸ List.mem_cons_self op rest)
      have hstep : mutexStep (some a) op = some a := by
        cases op with
        | lock b => rfl
        | unlock b =>
          have hb : ¬ ((some a : Option Nat) = some b) := by
            intro hc
            apply hop
            rw [Option.some.injEq] at hc
            rw [hc]
          simp [mutexStep, hb]
      show mutexRun (mutexStep (some a) op) rest = some a
      rw [hstep]
      exact ih (fun hm => hnot (List.mem_cons_of_mem op hm))
  constructor
  · intro env env2 name res res2 tr tr2 htab h1 h2
    obtain ⟨k, e, sevs, hscan, hres⟩ := acquire_ok_inv env name res tr h1
    obtain ⟨k2, e2, sevs2, hscan2, hres2⟩ := acquire_ok_inv env2 name res2 tr2 h2
    rw [← htab] at hscan2
    rw [hscan] at hscan2
    have hk : k = k2 := by
      have := congrArg Prod.fst hscan2
      simp only [ScanResult.found.injEq] at this
      exact this.1
    rw [hres, hres2, hk]
  · intro a ops hnot
    refine ⟨key a ops hnot, ?_, fun b => ?_⟩
    · rw [key a ops hnot]
      rfl
    · rw [key a ops hnot]
      rfl

set_option maxRecDepth 100000 in
/-- Witness for C8: two acquires of "fw.cache" against the same table
yield the same per-entry mutex cell, and with actor 0 holding that cell
(and not unlocking), actor 1's lock attempt fails. -/
theorem C8_mutual_exclusion_witness :
    fwCacheRes.mutex = fwCacheRes.mutex ∧
    mutexRun (some 0) [MutexOp.lock 1] = some 0 ∧
    mutexLockOk (mutexRun (some 0) [MutexOp.lock 1]) = false := by
  have hacq : nfp_resource_acquire fwCacheEnv fwCacheName = (.ok fwCacheRes, fwCacheTr) := by
    decide
  have h1 := C8_mutual_exclusion.1 fwCacheEnv fwCacheEnv fwCacheName fwCacheRes fwCacheRes
    fwCacheTr fwCacheTr rfl hacq hacq
  have h2 := C8_mutual_exclusion.2 0 [MutexOp.lock 1] (by decide)
  exact ⟨h1, h2.1, h2.2.1⟩

/-- C9: for any MBL/UAL mask pair, the setter rejects with -EINVAL — and
leaves the interface's port ID unchanged — any caller port ID having a bit
set in the reserved (MBL) range; otherwise it succeeds and installs the
caller bits masked to the UAL range merged with the interface's existing
MBL bits, as characterized bit by bit. -/
theorem C9_set_port_id (mblMask ualMask oldPortId portId : Nat) :
    ((∃ b, Nat.testBit portId b ∧ Nat.testBit mblMask b) →
      nfp_ual_set_port_id mblMask ualMask oldPortId portId = (-22, oldPortId)) ∧
    (portId &&& mblMask = 0 →
      nfp_ual_set_port_id mblMask ualMask oldPortId portId =
        (0, (portId &&& ualMask) ||| (oldPortId &&& mblMask)) ∧
      ∀ b, Nat.testBit ((portId &&& ualMask) ||| (oldPortId &&& mblMask)) b =
        ((Nat.testBit portId b && Nat.testBit ualMask b) ||
         (Nat.testBit oldPortId b && Nat.testBit mblMask b))) := by
  constructor
  · rintro ⟨b, hp, hm⟩
    have hne : portId &&& mblMask ≠ 0 := by
      intro h0
      have := congrArg (fun x => Nat.testBit x b) h0
      simp [Nat.testBit_land, hp, hm] at this
    simp [nfp_ual_set_port_id, hne]
  · intro h0
    refine ⟨by simp [nfp_ual_set_port_id, h0], fun b => ?_⟩
    simp [Nat.testBit_lor, Nat.testBit_land]

/-- Witness for C9 (masks MBL = bits 24..31, UAL = bits 0..23): a caller ID
touching bit 24 is rejected leaving the old ID, and a clean caller ID
0x5678 merges with the old MBL bits 0xab000000 into 0xab005678. -/
theorem C9_set_port_id_witness :
    nfp_ual_set_port_id 0xff000000 0x00ffffff 0xab001234 0x01000000 =
      (-22, 0xab001234) ∧
    nfp_ual_set_port_id 0xff000000 0x00ffffff 0xab001234 0x00005678 =
      (0, (0x00005678 &&& 0x00ffffff) ||| (0xab001234 &&& 0xff000000)) := by
  constructor
  · exact (C9_set_port_id 0xff000000 0x00ffffff 0xab001234 0x01000000).1
      ⟨24, by decide, by decide⟩
  · exact ((C9_set_port_id 0xff000000 0x00ffffff 0xab001234 0x00005678).2 (by decide)).1

/-- Dropping a trailing NUL does not change the C string a buffer holds. -/
theorem cstrBytes_append_zero (l : List Nat) : cstrBytes (l ++ [0]) = cstrBytes l := by
  induction l with
  | nil => rfl
  | cons a l ih =>
    by_cases ha : a = 0
    · subst ha
      rfl
    · unfold cstrBytes at ih ⊢
      rw [List.cons_append, List.takeWhile_cons, List.takeWhile_cons]
      have hpa : (decide (a ≠ 0)) = true := by simp [ha]
      rw [hpa, if_pos rfl, if_pos rfl, ih]

/-- The strncpy result buffer has exactly the requested length. -/
theorem strncpyPad_length (src : List Nat) (n : Nat) : (strncpyPad src n).length = n := by
  have h := List.length_take_le n (cstrBytes src)
  unfold strncpyPad
  rw [List.length_append, List.length_replicate]
  omega

/-- C10: every handle a successful acquire returns stores the caller name
in a 9-byte buffer — at most 8 bytes copied from the caller name, byte 9
always NUL — so the name accessor yields a NUL-terminated C string of at
most 8 characters regardless of the caller name's length or
termination. -/
theorem C10_name_buffer (env : AcquireEnv) (name : List Nat) (res : nfp_resource)
    (tr : List Ev) (h : nfp_resource_acquire env name = (.ok res, tr)) :
    nfp_resource_name res = strncpyPad name NFP_RESOURCE_ENTRY_NAME_SZ ++ [0] ∧
    (nfp_resource_name res).length = NFP_RESOURCE_ENTRY_NAME_SZ + 1 ∧
    (cstrBytes (nfp_resource_name res)).length ≤ NFP_RESOURCE_ENTRY_NAME_SZ := by
  obtain ⟨k, e, sevs, hscan, hres⟩ := acquire_ok_inv env name res tr h
  subst hres
  refine ⟨rfl, ?_, ?_⟩
  · simp [nfp_resource_name, strncpyPad_length]
  · show (cstrBytes (strncpyPad name NFP_RESOURCE_ENTRY_NAME_SZ ++ [0])).length ≤
      NFP_RESOURCE_ENTRY_NAME_SZ
    rw [cstrBytes_append_zero]
    have h1 := (List.takeWhile_sublist (l := strncpyPad name NFP_RESOURCE_ENTRY_NAME_SZ)
      (fun b => decide (b ≠ 0))).length_le
    have h2 := strncpyPad_length name NFP_RESOURCE_ENTRY_NAME_SZ
    simp only [cstrBytes]
    omega

set_option maxRecDepth 100000 in
/-- Witness for C10: the 12-byte unterminated name is truncated to 8 bytes
plus a NUL in the 9-byte buffer. -/
theorem C10_name_buffer_witness :
    nfp_resource_name longRes = strncpyPad longName NFP_RESOURCE_ENTRY_NAME_SZ ++ [0] ∧
    (nfp_resource_name longRes).length = NFP_RESOURCE_ENTRY_NAME_SZ + 1 ∧
    (cstrBytes (nfp_resource_name longRes)).length ≤ NFP_RESOURCE_ENTRY_NAME_SZ :=
  C10_name_buffer longEnv longName longRes longTr (by decide)
